import Mathlib

/-!
Shallow embedding of the code-review agent tools (src/tools.ts).

The repository exposes three tool functions:
  * getFileChangesInDirectory : lists per-file diffs, skipping excluded names;
  * generateCommitMessage     : derives a conventional commit message from a
                                git diff summary;
  * writeReviewToMarkdown     : persists review text to a markdown document,
                                converting I/O failures to structured results.

Git and filesystem effects are modelled by explicit behaviour records
(`GitRepo`, `FsBehavior`): each external call is a field holding the outcome
(`Except String _`) the real call would produce, and `await`-propagation of a
rejected promise is the `Except` error case.  JavaScript string operations
(`includes`, `endsWith`, `split('/')[0]`) are embedded as executable functions
on `List Char`.
-/

/-- JavaScript `pat.isPrefix-of-l` on character lists: `prefixMatch p l` is
`true` iff `p` is an initial segment of `l`. -/
def prefixMatch : List Char → List Char → Bool
  | [], _ => true
  | _ :: _, [] => false
  | p :: ps, c :: cs => p == c && prefixMatch ps cs

/-- `containsSub pat l` is `true` iff `pat` occurs as a contiguous run
inside `l`; this is JavaScript `String.prototype.includes`. -/
def containsSub : List Char → List Char → Bool
  | pat, [] => prefixMatch pat []
  | pat, c :: cs => prefixMatch pat (c :: cs) || containsSub pat cs

/-- JavaScript `s.includes(pat)`. -/
def strIncludes (s pat : String) : Bool :=
  containsSub pat.toList s.toList

/-- JavaScript `s.endsWith(pat)`. -/
def strEndsWith (s pat : String) : Bool :=
  prefixMatch pat.toList.reverse s.toList.reverse

/-- JavaScript `s.split('/')[0]`: the characters of `s` before its first
`'/'` (the whole of `s` when it has no `'/'`). -/
def firstSegment (s : String) : String :=
  String.mk (s.toList.takeWhile (fun c => c != '/'))

/-- `const excludeFiles = ["dist", "bun.lock"]` (src/tools.ts line 7). -/
def excludeFiles : List String := ["dist", "bun.lock"]

/-- One entry of simple-git's `DiffSummary.files`: a changed path with its
insertion and deletion counts. -/
structure FileChangeStat where
  file : String
  insertions : Nat
  deletions : Nat
deriving Repr, DecidableEq

/-- simple-git's `DiffSummary`: the ordered changed-file list and the two
aggregate totals, as consumed by the tools. -/
structure ChangeSummary where
  files : List FileChangeStat
  insertions : Nat
  deletions : Nat
deriving Repr, DecidableEq

/-- One element of `getFileChangesInDirectory`'s result: `{ file, diff }`. -/
structure FileDiff where
  file : String
  diff : String
deriving Repr, DecidableEq

/-- Behaviour of the `simpleGit(rootDir)` handle during one tool call: the
outcome of `git.diffSummary()`, of the whole-tree `git.diff()`, and of the
single-path `git.diff(["--", p])` for each path `p`.  An `Except.error` field
models the corresponding awaited promise rejecting. -/
structure GitRepo where
  diffSummary : Except String ChangeSummary
  fullDiff : Except String String
  pathDiff : String → Except String String

/-- The eight members of the zod enum for the `type` input. -/
inductive CommitType where
  | feat
  | fix
  | docs
  | style
  | refactor
  | perf
  | test
  | chore
deriving Repr, DecidableEq

/-- The string each enum member interpolates as in the template literal. -/
def CommitType.render : CommitType → String
  | .feat => "feat"
  | .fix => "fix"
  | .docs => "docs"
  | .style => "style"
  | .refactor => "refactor"
  | .perf => "perf"
  | .test => "test"
  | .chore => "chore"

/-- The auto-detection branch of `generateCommitMessage`
(src/tools.ts lines 52-67), run only when no explicit `type` was given. -/
def detectType (summary : ChangeSummary) : CommitType :=
  let changedFiles := summary.files.map (fun f => f.file)
  if changedFiles.any (fun f => strIncludes f ("test") || strIncludes f ("spec")) then
    CommitType.test
  else if changedFiles.any (fun f => strIncludes f ("README") || strEndsWith f (".md")) then
    CommitType.docs
  else if changedFiles.any (fun f => strIncludes f ("package.json")) then
    CommitType.chore
  else if summary.insertions > summary.deletions then
    CommitType.feat
  else
    CommitType.fix

/-- `const scope = filesChanged === 1 && summary.files[0] ?
summary.files[0].file.split('/')[0] : ""` (src/tools.ts line 76). -/
def scopeOf (summary : ChangeSummary) : String :=
  match summary.files with
  | [f0] => firstSegment f0.file
  | _ => ""

/-- `const scopeText = scope && summary.files[0] && scope !==
summary.files[0].file ? `(scope)` : ""` (src/tools.ts line 77); the empty
string is falsy in JavaScript. -/
def scopeTextOf (summary : ChangeSummary) : String :=
  let scope := scopeOf summary
  match summary.files with
  | [] => ""
  | f0 :: _ =>
    if scope ≠ "" ∧ scope ≠ f0.file then "(" ++ scope ++ ")" else ""

/-- The fixed description table (src/tools.ts lines 79-95): an if/else chain
over the detected type whose final `else` catches `style` and `perf`. -/
def descriptionFor : CommitType → String
  | .feat => "add new functionality"
  | .fix => "resolve issues"
  | .docs => "update documentation"
  | .refactor => "improve code structure"
  | .test => "add/update tests"
  | .chore => "update dependencies/config"
  | .style => "make changes"
  | .perf => "make changes"

/-- The `stats` object in `generateCommitMessage`'s return value. -/
structure CommitStats where
  filesChanged : Nat
  insertions : Nat
  deletions : Nat
  type : CommitType
deriving Repr, DecidableEq

/-- The structured (non-sentinel) return value of `generateCommitMessage`. -/
structure CommitResult where
  commitMessage : String
  stats : CommitStats
  affectedFiles : List String
deriving Repr, DecidableEq

/-- Message composition and result assembly (src/tools.ts lines 70-109),
given the summary and the resolved type. -/
def composeCommitMessage (summary : ChangeSummary) (detectedType : CommitType) :
    CommitResult :=
  let filesChanged := summary.files.length
  let insertions := summary.insertions
  let deletions := summary.deletions
  let scopeText := scopeTextOf summary
  let description := descriptionFor detectedType
  let commitMessage :=
    CommitType.render detectedType ++ scopeText ++ ": " ++ description ++
      "\n\n" ++ toString filesChanged ++ " file(s) changed, " ++
      toString insertions ++ " insertion(s), " ++ toString deletions ++
      " deletion(s)"
  { commitMessage := commitMessage
    stats :=
      { filesChanged := filesChanged
        insertions := insertions
        deletions := deletions
        type := detectedType }
    affectedFiles := summary.files.map (fun f => f.file) }

/-- `generateCommitMessage` (src/tools.ts lines 43-110).  The result is
either the sentinel string (left) or the structured object (right); a git
read failure propagates as `Except.error`.  The whole-tree diff is fetched
(line 70) after classification and before composition, and discarded. -/
def generateCommitMessage (git : GitRepo) (type : Option CommitType) :
    Except String (String ⊕ CommitResult) :=
  match git.diffSummary with
  | .error e => .error e
  | .ok summary =>
    if summary.files.length = 0 then
      .ok (Sum.inl ("No changes detected in the repository"))
    else
      let detectedType :=
        match type with
        | some t => t
        | none => detectType summary
      match git.fullDiff with
      | .error e => .error e
      | .ok _diffText => .ok (Sum.inr (composeCommitMessage summary detectedType))

/-- The `for` loop of `getFileChangesInDirectory` (src/tools.ts lines 20-24):
skip files whose path is exactly listed in `excludeFiles`, otherwise fetch the
single-path diff (whose rejection propagates) and push `{ file, diff }`. -/
def collectDiffs (git : GitRepo) : List FileChangeStat → Except String (List FileDiff)
  | [] => .ok []
  | f :: rest =>
    if excludeFiles.contains f.file then
      collectDiffs git rest
    else
      match git.pathDiff f.file with
      | .error e => .error e
      | .ok d =>
        match collectDiffs git rest with
        | .error e => .error e
        | .ok tail => .ok ({ file := f.file, diff := d } :: tail)

/-- `getFileChangesInDirectory` (src/tools.ts lines 15-27). -/
def getFileChangesInDirectory (git : GitRepo) : Except String (List FileDiff) :=
  match git.diffSummary with
  | .error e => .error e
  | .ok summary => collectDiffs git summary.files

/-- Behaviour of the filesystem during one `writeReviewToMarkdown` call: the
outcome of `mkdir(dir, { recursive: true })` and of
`writeFile(filePath, content, 'utf-8')`. -/
structure FsBehavior where
  mkdirResult : Except String Unit
  writeResult : Except String Unit

/-- The validated input object of `writeReviewToMarkdown`; zod supplies
`includeTimestamp`'s default `true` before the function runs. -/
structure WriteInput where
  filePath : String
  reviewContent : String
  title : Option String
  includeTimestamp : Bool

/-- The two shapes `writeReviewToMarkdown` returns: the success record
`{ success: true, filePath, message, size }` or the failure record
`{ success: false, error, filePath }`. -/
inductive WriteResult where
  | success (filePath : String) (message : String) (size : Nat)
  | failure (error : String) (filePath : String)
deriving Repr, DecidableEq

/-- The markdown document assembled by `writeReviewToMarkdown`
(src/tools.ts lines 134-152): title heading (the JavaScript
`title || "Code Review"` default also fires on the falsy empty string),
optional timestamp line, horizontal rule, the content verbatim, and the
auto-appended Summary section when the content has no `##`/`###` marker.
`now` stands for `new Date().toISOString()`. -/
def buildMarkdown (reviewContent : String) (title : Option String)
    (includeTimestamp : Bool) (now : String) : String :=
  let timestamp : Option String := if includeTimestamp then some now else none
  let reviewTitle :=
    match title with
    | some t => if t = "" then "Code Review" else t
    | none => "Code Review"
  let content1 := "# " ++ reviewTitle ++ "\n\n"
  let content2 :=
    match timestamp with
    | some ts => content1 ++ "**Generated:** " ++ ts ++ "\n\n"
    | none => content1
  let content3 := content2 ++ "---\n\n" ++ reviewContent
  if !(strIncludes reviewContent ("##")) && !(strIncludes reviewContent ("###")) then
    content3 ++ "\n\n## Summary\n\n" ++
      "This review was generated automatically. Please review the suggestions and apply them as appropriate.\n"
  else
    content3

/-- The `try` body of `writeReviewToMarkdown` (src/tools.ts lines 129-159):
ensure the directory, build the document, write it, return the success
record; a rejecting filesystem call throws (`Except.error`). -/
def writeReviewBody (fs : FsBehavior) (inp : WriteInput) (now : String) :
    Except String WriteResult :=
  match fs.mkdirResult with
  | .error e => .error e
  | .ok _ =>
    let markdownContent :=
      buildMarkdown inp.reviewContent inp.title inp.includeTimestamp now
    match fs.writeResult with
    | .error e => .error e
    | .ok _ =>
      .ok (WriteResult.success inp.filePath
        ("Code review successfully written to " ++ inp.filePath)
        markdownContent.length)

/-- `writeReviewToMarkdown` (src/tools.ts lines 128-167): the `try`/`catch`
wrapper turning any thrown error into the structured failure record, so the
function itself never throws — its outcome is always `Except.ok`. -/
def writeReviewToMarkdown (fs : FsBehavior) (inp : WriteInput) (now : String) :
    Except String WriteResult :=
  match writeReviewBody fs inp now with
  | .ok r => .ok r
  | .error e => .ok (WriteResult.failure e inp.filePath)

/-! ### Auxiliary lemmas about the embedded string primitives -/

lemma prefixMatch_append (p q l : List Char) (h : prefixMatch (p ++ q) l = true) :
    prefixMatch p l = true := by
  induction p generalizing l with
  | nil => rfl
  | cons a ps ih =>
    cases l with
    | nil => simp [prefixMatch] at h
    | cons c cs =>
      simp only [List.cons_append, prefixMatch, Bool.and_eq_true] at h ⊢
      exact ⟨h.1, ih cs h.2⟩

lemma containsSub_append (p q l : List Char) (h : containsSub (p ++ q) l = true) :
    containsSub p l = true := by
  induction l with
  | nil =>
    cases p with
    | nil => rfl
    | cons a ps => simp [containsSub, prefixMatch] at h
  | cons c cs ih =>
    simp only [containsSub, Bool.or_eq_true] at h ⊢
    cases h with
    | inl h => exact Or.inl (prefixMatch_append p q _ h)
    | inr h => exact Or.inr (ih h)

lemma containsSub_single (a : Char) (l : List Char) :
    containsSub [a] l = true ↔ a ∈ l := by
  induction l with
  | nil => simp [containsSub, prefixMatch]
  | cons c cs ih =>
    simp [containsSub, prefixMatch, Bool.or_eq_true, Bool.and_eq_true,
      beq_iff_eq, ih, List.mem_cons]

lemma takeWhile_ne_slash_of_not_mem (l : List Char) (h : '/' ∉ l) :
    l.takeWhile (fun c => c != '/') = l := by
  induction l with
  | nil => rfl
  | cons c cs ih =>
    simp only [List.mem_cons, not_or] at h
    obtain ⟨h1, h2⟩ := h
    have hc : (c != '/') = true := by
      simp only [bne_iff_ne, ne_eq]
      exact fun e => h1 e.symm
    simp [List.takeWhile_cons, hc, ih h2]

lemma takeWhile_lt_of_mem (l : List Char) (h : '/' ∈ l) :
    (l.takeWhile (fun c => c != '/')).length < l.length := by
  induction l with
  | nil => cases h
  | cons c cs ih =>
    by_cases hc : c = '/'
    · subst hc
      simp [List.takeWhile_cons]
    · have hmem : '/' ∈ cs := by
        cases List.mem_cons.mp h with
        | inl e => exact absurd e.symm hc
        | inr m => exact m
      have hb : (c != '/') = true := by
        simp only [bne_iff_ne, ne_eq]
        exact hc
      simp only [List.takeWhile_cons, hb, if_true, List.length_cons]
      exact Nat.succ_lt_succ (ih hmem)

lemma firstSegment_eq_self (s : String) (h : strIncludes s ("/") = false) :
    firstSegment s = s := by
  have e : ("/" : String).toList = ['/'] := rfl
  unfold strIncludes at h
  rw [e] at h
  have hm : '/' ∉ s.toList := by
    intro hmem
    rw [(containsSub_single '/' s.toList).mpr hmem] at h
    cases h
  unfold firstSegment
  rw [takeWhile_ne_slash_of_not_mem s.toList hm]
  rfl

lemma firstSegment_ne_self (s : String) (h : strIncludes s ("/") = true) :
    firstSegment s ≠ s := by
  have e : ("/" : String).toList = ['/'] := rfl
  unfold strIncludes at h
  rw [e] at h
  have hmem : '/' ∈ s.toList := (containsSub_single '/' s.toList).mp h
  have hlt := takeWhile_lt_of_mem s.toList hmem
  intro heq
  have hdata : (firstSegment s).toList = s.toList := by rw [heq]
  have e2 : (firstSegment s).toList = s.toList.takeWhile (fun c => c != '/') := rfl
  rw [e2] at hdata
  rw [hdata] at hlt
  exact Nat.lt_irrefl _ hlt

lemma strIncludes_hash2_of_hash3 (c : String) (h : strIncludes c ("###") = true) :
    strIncludes c ("##") = true := by
  have e : ("###" : String).toList = ("##" : String).toList ++ ['#'] := rfl
  unfold strIncludes at h ⊢
  rw [e] at h
  exact containsSub_append _ _ _ h

lemma any_map_comp {α β : Type} (f : α → β) (l : List α) (p : β → Bool) :
    (l.map f).any p = l.any (fun a => p (f a)) := by
  induction l with
  | nil => rfl
  | cons a as ih => simp [List.any_cons, ih]

/-! ### Auxiliary lemmas about the embedded tools -/

lemma generateCommitMessage_ok (g : GitRepo) (s : ChangeSummary) (d : String)
    (ty : Option CommitType) (h1 : g.diffSummary = Except.ok s)
    (h2 : g.fullDiff = Except.ok d) (hne : s.files ≠ []) :
    generateCommitMessage g ty =
      Except.ok (Sum.inr (composeCommitMessage s
        (match ty with
         | some t => t
         | none => detectType s))) := by
  have hlen : ¬ s.files.length = 0 := by
    simpa [List.length_eq_zero] using hne
  simp only [generateCommitMessage, h1, h2]
  rw [if_neg hlen]

/-! ### Concrete inputs used by the witnesses -/

/-- Git behaviour whose summary succeeds with `s` and whose diff reads
succeed with empty text. -/
def gitOf (s : ChangeSummary) : GitRepo :=
  { diffSummary := Except.ok s
    fullDiff := Except.ok ("")
    pathDiff := fun _ => Except.ok ("") }

/-- A one-file summary with more insertions than deletions and no
test/docs/manifest marker in its path. -/
def sampleFeat : ChangeSummary := ⟨[⟨"src/app.ts", 3, 1⟩], 3, 1⟩

/-- A summary whose only changed path is the excluded name `bun.lock`. -/
def sampleLock : ChangeSummary := ⟨[⟨"bun.lock", 2, 1⟩], 2, 1⟩

/-! ### Claims -/

/-- Claim C1: with a non-empty summary and no explicit type, the detected
classification follows the exact first-match-wins priority: `test` when some
path contains `test` or `spec`; else `docs` when some path contains `README`
or ends with `.md`; else `chore` when some path contains `package.json`;
else `feat` when `totalInsertions > totalDeletions`; else `fix`. -/
theorem commit_type_detection_priority :
    ∀ (g : GitRepo) (s : ChangeSummary) (d : String),
      g.diffSummary = Except.ok s → s.files ≠ [] → g.fullDiff = Except.ok d →
      ∃ r, generateCommitMessage g none = Except.ok (Sum.inr r) ∧
        r.stats.type =
          (if s.files.any (fun f => strIncludes f.file ("test") || strIncludes f.file ("spec")) then
            CommitType.test
          else if s.files.any (fun f => strIncludes f.file ("README") || strEndsWith f.file (".md")) then
            CommitType.docs
          else if s.files.any (fun f => strIncludes f.file ("package.json")) then
            CommitType.chore
          else if s.insertions > s.deletions then
            CommitType.feat
          else
            CommitType.fix) := by
  intro g s d h1 hne h2
  refine ⟨composeCommitMessage s (detectType s), generateCommitMessage_ok g s d none h1 h2 hne, ?_⟩
  have hstat : (composeCommitMessage s (detectType s)).stats.type = detectType s := rfl
  rw [hstat]
  unfold detectType
  simp only [any_map_comp]

/-- Claim C1 witness: a concrete repository with one changed file
`src/app.ts`, 3 insertions, 1 deletion, detected as `feat`. -/
theorem commit_type_detection_priority_witness :
    sampleFeat.files ≠ [] ∧
    ∃ r, generateCommitMessage (gitOf sampleFeat) none = Except.ok (Sum.inr r) ∧
      r.stats.type = CommitType.feat := by
  refine ⟨by decide, ?_⟩
  obtain ⟨r, hr, ht⟩ :=
    commit_type_detection_priority (gitOf sampleFeat) sampleFeat ("") rfl (by decide) rfl
  refine ⟨r, hr, ?_⟩
  rw [ht]
  decide

/-- Claim C2: when the summary has zero files, `generateCommitMessage`
returns exactly the sentinel string, for every optional explicit type and
regardless of the whole-tree diff's outcome (it is never fetched), so no
classification or composition happens. -/
theorem empty_summary_sentinel :
    ∀ (g : GitRepo) (s : ChangeSummary) (ty : Option CommitType),
      g.diffSummary = Except.ok s → s.files = [] →
      generateCommitMessage g ty =
        Except.ok (Sum.inl ("No changes detected in the repository")) := by
  intro g s ty h1 h2
  simp [generateCommitMessage, h1, h2]

/-- Claim C2 witness: an empty summary with an explicit type supplied and a
whole-tree diff that would fail still yields exactly the sentinel string. -/
theorem empty_summary_sentinel_witness :
    (⟨[], 0, 0⟩ : ChangeSummary).files = [] ∧
    generateCommitMessage
      ⟨Except.ok ⟨[], 0, 0⟩, Except.error ("diff failed"), fun _ => Except.error ("diff failed")⟩
      (some CommitType.feat) =
      Except.ok (Sum.inl ("No changes detected in the repository")) :=
  ⟨rfl, empty_summary_sentinel
    ⟨Except.ok ⟨[], 0, 0⟩, Except.error ("diff failed"), fun _ => Except.error ("diff failed")⟩
    ⟨[], 0, 0⟩ (some CommitType.feat) rfl rfl⟩

/-- Claim C3: the composed commit message is exactly
`<type><(scope)?>: <description>` then a blank line then
`<N> file(s) changed, <I> insertion(s), <D> deletion(s)`; the description
table maps feat/fix/docs/refactor/test/chore to their fixed phrases and
style/perf to `make changes`; the stats equal the summary counts and
`affectedFiles` is the full ordered unfiltered path list. -/
theorem composed_message_format :
    ∀ (s : ChangeSummary) (t : CommitType),
      (composeCommitMessage s t).commitMessage =
        CommitType.render t ++ scopeTextOf s ++ ": " ++ descriptionFor t ++ "\n\n" ++
          toString s.files.length ++ " file(s) changed, " ++ toString s.insertions ++
          " insertion(s), " ++ toString s.deletions ++ " deletion(s)" ∧
      descriptionFor CommitType.feat = "add new functionality" ∧
      descriptionFor CommitType.fix = "resolve issues" ∧
      descriptionFor CommitType.docs = "update documentation" ∧
      descriptionFor CommitType.refactor = "improve code structure" ∧
      descriptionFor CommitType.test = "add/update tests" ∧
      descriptionFor CommitType.chore = "update dependencies/config" ∧
      descriptionFor CommitType.style = "make changes" ∧
      descriptionFor CommitType.perf = "make changes" ∧
      (composeCommitMessage s t).stats.filesChanged = s.files.length ∧
      (composeCommitMessage s t).stats.insertions = s.insertions ∧
      (composeCommitMessage s t).stats.deletions = s.deletions ∧
      (composeCommitMessage s t).stats.type = t ∧
      (composeCommitMessage s t).affectedFiles = s.files.map (fun f => f.file) := by
  intro s t
  exact ⟨rfl, rfl, rfl, rfl, rfl, rfl, rfl, rfl, rfl, rfl, rfl, rfl, rfl, rfl⟩

/-- Claim C4 counterexample: the summary with exactly one changed file
`/a` — a path that does contain the separator `/` — produces the headline
`feat: add new functionality`, which contains no parenthesized scope at
all: the first path-segment of `/a` under `split('/')[0]` is the empty
string, which is falsy in JavaScript, so no scope is emitted, contradicting
the claim that every single-file path containing `/` yields a parenthesized
first-segment scope. -/
theorem scope_claim_counterexample :
    strIncludes ("/a") ("/") = true ∧
    (composeCommitMessage ⟨[⟨"/a", 1, 0⟩], 1, 0⟩ CommitType.feat).commitMessage =
      "feat: add new functionality\n\n1 file(s) changed, 1 insertion(s), 0 deletion(s)" ∧
    strIncludes
      ((composeCommitMessage ⟨[⟨"/a", 1, 0⟩], 1, 0⟩ CommitType.feat).commitMessage)
      ("(" ++ firstSegment ("/a") ++ ")") = false := by
  decide

/-- Claim C4 amended: with exactly one changed file, the parenthesized first
path-segment is emitted as scope exactly when the path contains `/` and its
first segment is non-empty (a path starting with `/` has an empty first
segment, which is falsy, so no scope); a single separator-free path and any
multi-file summary emit no scope; the scope text sits between the type token
and the colon. -/
theorem scope_emission_amended :
    ∀ (s : ChangeSummary) (t : CommitType),
      scopeTextOf s =
        (match s.files with
         | [f0] =>
           if strIncludes f0.file ("/") = true ∧ firstSegment f0.file ≠ "" then
             "(" ++ firstSegment f0.file ++ ")"
           else ""
         | _ => "") ∧
      ∃ rest, (composeCommitMessage s t).commitMessage =
        CommitType.render t ++ scopeTextOf s ++ rest := by
  intro s t
  constructor
  · obtain ⟨files, ins, del⟩ := s
    cases files with
    | nil => rfl
    | cons f0 rest =>
      cases rest with
      | cons f1 rest2 => simp [scopeTextOf, scopeOf]
      | nil =>
        by_cases hs : strIncludes f0.file ("/") = true
        · by_cases hseg : firstSegment f0.file = ""
          · simp [scopeTextOf, scopeOf, hs, hseg]
          · have hne := firstSegment_ne_self f0.file hs
            simp [scopeTextOf, scopeOf, hs, hseg, hne]
        · have hfalse : strIncludes f0.file ("/") = false := by
            simpa using hs
          have heq := firstSegment_eq_self f0.file hfalse
          simp [scopeTextOf, scopeOf, hs, heq]
  · refine ⟨": " ++ descriptionFor t ++ "\n\n" ++ toString s.files.length ++
      " file(s) changed, " ++ toString s.insertions ++ " insertion(s), " ++
      toString s.deletions ++ " deletion(s)", ?_⟩
    simp [composeCommitMessage, String.append_assoc]

/-- Claim C5 counterexample: `bun.lock` is in the configured exclusion set,
yet when it is the only changed path `generateCommitMessage` classifies and
composes from it — the summary consumed downstream is unfiltered, so the
excluded path drives the counts, the detected type, and appears in
`affectedFiles`. -/
theorem exclusion_claim_counterexample :
    excludeFiles.contains ("bun.lock") = true ∧
    generateCommitMessage (gitOf sampleLock) none =
      Except.ok (Sum.inr
        { commitMessage := "feat: add new functionality\n\n1 file(s) changed, 2 insertion(s), 1 deletion(s)"
          stats := { filesChanged := 1, insertions := 2, deletions := 1, type := CommitType.feat }
          affectedFiles := ["bun.lock"] }) :=
  ⟨by decide, rfl⟩

/-- Claim C5 amended: the exclusion set is applied only inside
`listChanges`; `generateCommitMessage` consumes the raw unfiltered summary,
so every changed path — excluded names included — counts toward the detected
type, the file/insertion/deletion counts, and `affectedFiles`. -/
theorem exclusion_only_in_listChanges :
    ∀ (g : GitRepo) (s : ChangeSummary) (d : String),
      g.diffSummary = Except.ok s → g.fullDiff = Except.ok d → s.files ≠ [] →
      ∃ r, generateCommitMessage g none = Except.ok (Sum.inr r) ∧
        r.affectedFiles = s.files.map (fun f => f.file) ∧
        r.stats.filesChanged = s.files.length ∧
        r.stats.insertions = s.insertions ∧
        r.stats.deletions = s.deletions ∧
        r.stats.type = detectType s := by
  intro g s d h1 h2 hne
  exact ⟨composeCommitMessage s (detectType s),
    generateCommitMessage_ok g s d none h1 h2 hne, rfl, rfl, rfl, rfl, rfl⟩

/-- Claim C5 amended witness: with `bun.lock` as the only changed path the
excluded name flows into `affectedFiles`. -/
theorem exclusion_only_in_listChanges_witness :
    sampleLock.files ≠ [] ∧
    ∃ r, generateCommitMessage (gitOf sampleLock) none = Except.ok (Sum.inr r) ∧
      r.affectedFiles = ["bun.lock"] := by
  refine ⟨by decide, ?_⟩
  obtain ⟨r, hr, ha, _⟩ :=
    exclusion_only_in_listChanges (gitOf sampleLock) sampleLock ("") rfl rfl (by decide)
  refine ⟨r, hr, ?_⟩
  rw [ha]
  rfl

/-- Claim C6: with a non-empty summary, an explicit type is used verbatim —
it becomes `stats.type` and the leading token of the headline — and the
auto-detection rules are never consulted (the theorem holds for every
summary, whatever its paths and counts would have matched). -/
theorem explicit_type_verbatim :
    ∀ (g : GitRepo) (s : ChangeSummary) (t : CommitType) (d : String),
      g.diffSummary = Except.ok s → s.files ≠ [] → g.fullDiff = Except.ok d →
      ∃ r, generateCommitMessage g (some t) = Except.ok (Sum.inr r) ∧
        r.stats.type = t ∧
        ∃ rest, r.commitMessage = CommitType.render t ++ rest := by
  intro g s t d h1 hne h2
  refine ⟨composeCommitMessage s t, ?_, rfl, ?_⟩
  · exact generateCommitMessage_ok g s d (some t) h1 h2 hne
  · refine ⟨scopeTextOf s ++ ": " ++ descriptionFor t ++ "\n\n" ++
      toString s.files.length ++ " file(s) changed, " ++ toString s.insertions ++
      " insertion(s), " ++ toString s.deletions ++ " deletion(s)", ?_⟩
    simp [composeCommitMessage, String.append_assoc]

/-- Claim C6 witness: the `src/app.ts` summary, whose auto-detection would
give `feat`, still yields `chore` when `chore` is passed explicitly. -/
theorem explicit_type_verbatim_witness :
    sampleFeat.files ≠ [] ∧
    ∃ r, generateCommitMessage (gitOf sampleFeat) (some CommitType.chore) =
        Except.ok (Sum.inr r) ∧
      r.stats.type = CommitType.chore ∧
      ∃ rest, r.commitMessage = CommitType.render CommitType.chore ++ rest :=
  ⟨by decide, explicit_type_verbatim (gitOf sampleFeat) sampleFeat
    CommitType.chore ("") rfl (by decide) rfl⟩

lemma emptyString_data : ("" : String).data = [] := rfl

lemma collectDiffs_all_ok (g : GitRepo) (d : String → String)
    (hp : g.pathDiff = fun p => Except.ok (d p)) :
    ∀ l : List FileChangeStat,
      collectDiffs g l =
        Except.ok ((l.filter (fun f => !(excludeFiles.contains f.file))).map
          (fun f => { file := f.file, diff := d f.file })) := by
  intro l
  induction l with
  | nil => rfl
  | cons f rest ih =>
    by_cases hc : excludeFiles.contains f.file = true
    · have hm : f.file ∈ excludeFiles := by simpa using hc
      simp [collectDiffs, hc, hm, ih, List.filter_cons]
    · have hc2 : excludeFiles.contains f.file = false := by simpa using hc
      have hm : f.file ∉ excludeFiles := by simpa using hc2
      simp [collectDiffs, hc2, hm, hp, ih, List.filter_cons]

/-- Claim C7: `listChanges` returns one `{file, diff}` entry per summary
file, in summary order, dropping exactly the files whose whole path is an
exact member of the excluded-name set — so `dist` and `bun.lock` are
dropped while `dist/app.js` is retained — and each retained entry carries
the single-path diff fetched for that file. -/
theorem listChanges_exact_exclusion :
    ∀ (g : GitRepo) (s : ChangeSummary) (d : String → String),
      g.diffSummary = Except.ok s → g.pathDiff = (fun p => Except.ok (d p)) →
      getFileChangesInDirectory g =
        Except.ok ((s.files.filter (fun f => !(excludeFiles.contains f.file))).map
          (fun f => { file := f.file, diff := d f.file })) ∧
      excludeFiles.contains ("dist") = true ∧
      excludeFiles.contains ("bun.lock") = true ∧
      excludeFiles.contains ("dist/app.js") = false := by
  intro g s d h1 hp
  refine ⟨?_, by decide, by decide, by decide⟩
  simp only [getFileChangesInDirectory, h1]
  exact collectDiffs_all_ok g d hp s.files

/-- A four-file summary mixing excluded names (`dist`, `bun.lock`), a
regular path, and a path lying inside an excluded directory. -/
def sampleMixed : ChangeSummary :=
  ⟨[⟨"dist", 1, 1⟩, ⟨"src/a.ts", 2, 0⟩, ⟨"bun.lock", 0, 1⟩, ⟨"dist/app.js", 1, 0⟩], 4, 2⟩

/-- Git behaviour for the mixed summary whose path diffs echo the path. -/
def gitMixed : GitRepo :=
  { diffSummary := Except.ok sampleMixed
    fullDiff := Except.ok ("")
    pathDiff := fun p => Except.ok ("diff of " ++ p) }

/-- Claim C7 witness: on the mixed summary, exactly `dist` and `bun.lock`
are omitted, order is preserved, and `dist/app.js` is retained. -/
theorem listChanges_exact_exclusion_witness :
    gitMixed.diffSummary = Except.ok sampleMixed ∧
    getFileChangesInDirectory gitMixed =
      Except.ok [⟨"src/a.ts", "diff of src/a.ts"⟩, ⟨"dist/app.js", "diff of dist/app.js"⟩] := by
  refine ⟨rfl, ?_⟩
  have h := (listChanges_exact_exclusion gitMixed sampleMixed
    (fun p => "diff of " ++ p) rfl rfl).1
  rw [h]
  rfl

/-- Claim C8: the document assembled by `writeReviewToMarkdown` is exactly
the `# title` heading (defaulting to `Code Review`), then the
`**Generated:** now` line exactly when `includeTimestamp` is true, then the
`---` rule, then the content verbatim, then the auto-generated `## Summary`
section exactly when the content contains no heading marker — where a
heading marker is an occurrence of `##` (the source's additional `###`
check is subsumed, since any `###` contains `##`); and with both filesystem
calls succeeding, that document's length is reported as `size` in the
success record. -/
theorem writeReview_document_layout :
    ∀ (inp : WriteInput) (now : String),
      buildMarkdown inp.reviewContent inp.title inp.includeTimestamp now =
        "# " ++ (match inp.title with
                 | some t => if t = "" then "Code Review" else t
                 | none => "Code Review") ++ "\n\n" ++
        (if inp.includeTimestamp then "**Generated:** " ++ now ++ "\n\n" else "") ++
        "---\n\n" ++ inp.reviewContent ++
        (if strIncludes inp.reviewContent ("##") = true then ""
         else "\n\n## Summary\n\nThis review was generated automatically. Please review the suggestions and apply them as appropriate.\n") ∧
      writeReviewToMarkdown ⟨Except.ok (), Except.ok ()⟩ inp now =
        Except.ok (WriteResult.success inp.filePath
          ("Code review successfully written to " ++ inp.filePath)
          (buildMarkdown inp.reviewContent inp.title inp.includeTimestamp now).length) := by
  intro inp now
  constructor
  · obtain ⟨fp, content, title, ts⟩ := inp
    cases h2 : strIncludes content ("##") with
    | true =>
      simp only [buildMarkdown, h2]
      cases ts <;> cases title <;>
        · apply String.ext
          simp [String.data_append, List.append_assoc, emptyString_data]
    | false =>
      cases h3 : strIncludes content ("###") with
      | true =>
        have := strIncludes_hash2_of_hash3 content h3
        rw [h2] at this
        cases this
      | false =>
        simp only [buildMarkdown, h2, h3]
        cases ts <;> cases title <;>
          · apply String.ext
            simp [String.data_append, List.append_assoc, emptyString_data]
  · rfl

/-- Claim C9: `writeReviewToMarkdown` never raises — every outcome is
`Except.ok` of either the success record (both filesystem calls succeed) or
the structured failure record carrying the error and the file path; by
contrast the repository-reading tools propagate a failing read as a raised
error. -/
theorem writeReview_never_throws :
    ∀ (fs : FsBehavior) (inp : WriteInput) (now : String),
      (∃ r, writeReviewToMarkdown fs inp now = Except.ok r) ∧
      (∀ e, fs.mkdirResult = Except.error e →
        writeReviewToMarkdown fs inp now =
          Except.ok (WriteResult.failure e inp.filePath)) ∧
      (∀ e u, fs.mkdirResult = Except.ok u → fs.writeResult = Except.error e →
        writeReviewToMarkdown fs inp now =
          Except.ok (WriteResult.failure e inp.filePath)) ∧
      (∀ u v, fs.mkdirResult = Except.ok u → fs.writeResult = Except.ok v →
        writeReviewToMarkdown fs inp now =
          Except.ok (WriteResult.success inp.filePath
            ("Code review successfully written to " ++ inp.filePath)
            (buildMarkdown inp.reviewContent inp.title inp.includeTimestamp now).length)) ∧
      (∃ (g : GitRepo) (e : String), getFileChangesInDirectory g = Except.error e) ∧
      (∃ (g : GitRepo) (ty : Option CommitType) (e : String),
        generateCommitMessage g ty = Except.error e) := by
  intro fs inp now
  refine ⟨?_, ?_, ?_, ?_, ?_, ?_⟩
  · unfold writeReviewToMarkdown writeReviewBody
    cases hm : fs.mkdirResult with
    | error e => exact ⟨WriteResult.failure e inp.filePath, rfl⟩
    | ok u =>
      cases hw : fs.writeResult with
      | error e => exact ⟨WriteResult.failure e inp.filePath, rfl⟩
      | ok v => exact ⟨WriteResult.success inp.filePath
          ("Code review successfully written to " ++ inp.filePath)
          (buildMarkdown inp.reviewContent inp.title inp.includeTimestamp now).length, rfl⟩
  · intro e hm
    unfold writeReviewToMarkdown writeReviewBody
    rw [hm]
  · intro e u hm hw
    unfold writeReviewToMarkdown writeReviewBody
    rw [hm, hw]
  · intro u v hm hw
    unfold writeReviewToMarkdown writeReviewBody
    rw [hm, hw]
  · exact ⟨⟨Except.error ("not a git repo"), Except.ok (""), fun _ => Except.ok ("")⟩,
      "not a git repo", rfl⟩
  · exact ⟨⟨Except.error ("not a git repo"), Except.ok (""), fun _ => Except.ok ("")⟩,
      none, "not a git repo", rfl⟩

/-- Filesystem behaviour whose directory creation fails. -/
def fsFail : FsBehavior := ⟨Except.error ("disk full"), Except.ok ()⟩

/-- A concrete write request. -/
def sampleWrite : WriteInput := ⟨"reviews/out.md", "looks good", none, true⟩

/-- Claim C9 witness: a failing `mkdir` still yields `Except.ok` of the
structured failure record. -/
theorem writeReview_never_throws_witness :
    fsFail.mkdirResult = Except.error ("disk full") ∧
    writeReviewToMarkdown fsFail sampleWrite ("2025-01-01T00:00:00.000Z") =
      Except.ok (WriteResult.failure ("disk full") ("reviews/out.md")) :=
  ⟨rfl, (writeReview_never_throws fsFail sampleWrite
    ("2025-01-01T00:00:00.000Z")).2.1 ("disk full") rfl⟩

/-- Claim C10: two invocations whose repositories yield the same summary
and get the same optional explicit type return identical results — the
fetched whole-tree diff text is discarded, so runs differing only in diff
bodies coincide byte for byte. -/
theorem generate_commit_message_deterministic :
    ∀ (g1 g2 : GitRepo) (ty : Option CommitType) (s : ChangeSummary) (d1 d2 : String),
      g1.diffSummary = Except.ok s → g2.diffSummary = Except.ok s →
      g1.fullDiff = Except.ok d1 → g2.fullDiff = Except.ok d2 →
      generateCommitMessage g1 ty = generateCommitMessage g2 ty := by
  intro g1 g2 ty s d1 d2 h1 h2 h3 h4
  by_cases hlen : s.files.length = 0
  · simp [generateCommitMessage, h1, h2, hlen]
  · have hne : s.files ≠ [] := by
      intro he
      exact hlen (by simp [he])
    rw [generateCommitMessage_ok g1 s d1 ty h1 h3 hne,
      generateCommitMessage_ok g2 s d2 ty h2 h4 hne]

/-- Repository returning the `src/app.ts` summary with one diff body. -/
def gitDiffOne : GitRepo :=
  ⟨Except.ok sampleFeat, Except.ok ("diff body one"), fun _ => Except.ok ("")⟩

/-- Repository returning the same summary with a different diff body. -/
def gitDiffTwo : GitRepo :=
  ⟨Except.ok sampleFeat, Except.ok ("diff body two"), fun _ => Except.ok ("")⟩

/-- Claim C10 witness: two repositories equal in summary but different in
diff body produce identical commit-message results. -/
theorem generate_commit_message_deterministic_witness :
    ("diff body one" : String) ≠ "diff body two" ∧
    generateCommitMessage gitDiffOne none = generateCommitMessage gitDiffTwo none :=
  ⟨by decide, generate_commit_message_deterministic gitDiffOne gitDiffTwo none
    sampleFeat ("diff body one") ("diff body two") rfl rfl rfl rfl⟩
